import Mathlib

/-!
Shallow embedding of the authorization and SSH-signing core of the
DIMO-Network/certificates repository (src/authority/authorize.go and
src/api/ssh.go), together with theorems settling the frozen claims about it.

External collaborators (the jose token library, `net/url`, `encoding/base64`,
`encoding/json` string handling, `golang.org/x/crypto/ssh` wire codec, the
provisioner package and the template engine) are not part of the repository;
where a claim depends on them they are modelled explicitly, each with a doc
comment saying so.  Everything else is translated directly from the Go source.
-/

namespace Certificates

/-! ## Constants

`provisioner.SSHUserCert` / `provisioner.SSHHostCert` are string constants of
the provisioner package (outside src/); the spec fixes the two known
certificate kinds as "user" and "host".  `ssh.UserCert` / `ssh.HostCert` are
the numeric certificate types of golang.org/x/crypto/ssh. -/

def SSHUserCert : String := "user"

def SSHHostCert : String := "host"

def sshUserCert : Nat := 1

def sshHostCert : Nat := 2

/-! ## authority/authorize.go : data model -/

/-- `idUsed` (authorize.go lines 14-17): the value stored in the replay map. -/
structure IdUsed where
  usedAt : Int
  subject : String
  deriving DecidableEq, Repr

/-- `Claims` (authorize.go lines 20-25) extending `jose.Claims`.  The jose
numeric-date fields are modelled as `Int` unix seconds, `0` standing for an
absent field exactly as Go's zero value does. -/
structure Claims where
  issuer : String := ""
  subject : String := ""
  audience : List String := []
  expiry : Int := 0
  issuedAt : Int := 0
  id : String := ""
  sans : List String := []
  email : String := ""
  nonce : String := ""
  deriving DecidableEq, Repr

/-- The provisioner kinds relevant to the pipeline: `provisioner.TypeJWK`
(single-use signing-key kind) and `provisioner.TypeOIDC` (audience-bound
kind).  The provisioner package is outside src/. -/
inductive ProvisionerType
  | TypeJWK
  | TypeOIDC
  deriving DecidableEq, Repr

/-- `provisioner.SignOption` is opaque to the pipeline: it only threads the
ordered list through.  Modelled as a tagged unit. -/
structure SignOption where
  tag : Nat
  deriving DecidableEq, Repr

/-- A provisioner as the pipeline sees it: its type and its own
`Authorize(ott)` routine (an external collaborator, modelled as a function
field). -/
structure Provisioner where
  ptype : ProvisionerType
  authorize : String → Except String (List SignOption)

/-- Errors out of `Authority.Authorize`: `apiError` values built by the
pipeline itself (message and HTTP status code), or the error of the resolved
provisioner's own `Authorize`, returned verbatim (authorize.go line 102). -/
inductive AuthorizeError
  | api (msg : String) (code : Nat)
  | prov (msg : String)
  deriving DecidableEq, Repr

/-- The replay map (`a.ottMap`, a `sync.Map`) modelled as an association
list; `lookupId` is `Load`. -/
def lookupId : List (String × IdUsed) → String → Option IdUsed
  | [], _ => none
  | (k, v) :: rest, key => if k = key then some v else lookupId rest key

/-- `sync.Map.LoadOrStore`: returns the existing value and the unchanged map,
or stores the given value and reports it fresh.  One atomic step. -/
def loadOrStore (m : List (String × IdUsed)) (k : String) (v : IdUsed) :
    Option IdUsed × List (String × IdUsed) :=
  match lookupId m k with
  | some old => (some old, m)
  | none => (none, m ++ [(k, v)])

/-- The authority-level configuration consulted by the bootstrap guard
(`a.config.AuthorityConfig`, a nilable pointer). -/
structure AuthorityConfig where
  disableIssuedAtCheck : Bool
  deriving DecidableEq, Repr

/-- The `Authority` state used by `Authorize`: nilable authority config,
process start time, the provisioner registry's `LoadByToken` (an external
collaborator, modelled as a function of the token and its unverified claims),
and the replay map. -/
structure Authority where
  authorityConfig : Option AuthorityConfig
  startTime : Int
  provisioners : String → Claims → Option Provisioner
  ottMap : List (String × IdUsed)

/-- The bootstrap issued-at guard (authorize.go lines 77-82):
`a.config.AuthorityConfig != nil && !DisableIssuedAtCheck` and
`claims.IssuedAt > 0 && claims.IssuedAt.Time().Before(a.startTime)`. -/
def issuedAtGuardRejects (a : Authority) (claims : Claims) : Bool :=
  match a.authorityConfig with
  | none => false
  | some cfg =>
    !cfg.disableIssuedAtCheck &&
      (decide (0 < claims.issuedAt) && decide (claims.issuedAt < a.startTime))

/-- Lines 84-103 of `Authorize`: provisioner resolution, replay protection
for JWK provisioners, and delegation to the provisioner's own `Authorize`.
Returns the result together with the (possibly updated) replay map.  `now` is
`time.Now().Unix()`. -/
def authorizeResolved (a : Authority) (now : Int) (ott : String) (claims : Claims) :
    Except AuthorizeError (List SignOption) × List (String × IdUsed) :=
  match a.provisioners ott claims with
  | none => (.error (.api "authorize: provisioner not found" 401), a.ottMap)
  | some p =>
    if p.ptype = ProvisionerType.TypeJWK ∧ claims.id ≠ "" then
      match loadOrStore a.ottMap claims.id ⟨now, claims.subject⟩ with
      | (some _, m) => (.error (.api "token already used" 401), m)
      | (none, m) =>
        match p.authorize ott with
        | .ok opts => (.ok opts, m)
        | .error e => (.error (.prov e), m)
    else
      match p.authorize ott with
      | .ok opts => (.ok opts, a.ottMap)
      | .error e => (.error (.prov e), a.ottMap)

/-- `Authority.Authorize` (authorize.go lines 57-103).  The jose structural
parse and the unverified claim extraction (two steps in Go, both failing with
status 401) are modelled as one external parse function `parseToken`. -/
def Authority.Authorize (parseToken : String → Option Claims) (a : Authority)
    (now : Int) (ott : String) :
    Except AuthorizeError (List SignOption) × List (String × IdUsed) :=
  match parseToken ott with
  | none => (.error (.api "authorize: error parsing token" 401), a.ottMap)
  | some claims =>
    if issuedAtGuardRejects a claims then
      (.error (.api "token issued before the bootstrap of certificate authority" 401),
        a.ottMap)
    else
      authorizeResolved a now ott claims

/-! ## authority/authorize.go : audience matching -/

/-- Helper for `stripPort`: split a character list at the first occurrence of
`"://"`.  Returns the scheme part and the remainder, or `none` when the first
colon is not followed by `//` (or there is no colon at all). -/
def splitScheme : List Char → Option (List Char × List Char)
  | [] => none
  | ':' :: '/' :: '/' :: rest => some ([], rest)
  | ':' :: _ => none
  | c :: rest =>
    match splitScheme rest with
    | some (schemeChars, tail) => some (c :: schemeChars, tail)
    | none => none

/-- Helper for `stripPort`: drop everything from the last `':'` of a host
(inclusive); input is the reversed host, output the reversed remaining
prefix, `none` when the host has no colon. -/
def cutAfterColon : List Char → Option (List Char)
  | [] => none
  | c :: rest => if c = ':' then some rest else cutAfterColon rest

/-- Helper for `stripPort`: `url.URL.Hostname()` on a `host[:port]` string —
remove the `:port` suffix (everything from the last colon) when present. -/
def dropPort (host : List Char) : List Char :=
  match cutAfterColon host.reverse with
  | some beforeColon => beforeColon.reverse
  | none => host

/-- `stripPort` (authorize.go lines 45-52).  Modelled from the spec: the Go
body delegates to `net/url` (outside the repository) — parse the url, replace
the host by `Hostname()` (the host without its port) and re-serialize,
returning the argument unchanged when it does not parse as a `scheme://`
url.  Modelled here for entries of shape `scheme://host[:port]rest`
(the URL-shaped entries of the spec; bracketed IPv6 hosts are not modelled);
any other string is returned unchanged. -/
def stripPort (rawurl : String) : String :=
  match splitScheme rawurl.data with
  | none => rawurl
  | some (schemeChars, rest) =>
    let host := rest.takeWhile (fun c => c ≠ '/')
    let tail := rest.dropWhile (fun c => c ≠ '/')
    ⟨schemeChars ++ ':' :: '/' :: '/' :: (dropPort host ++ tail)⟩

/-- `matchesAudience` (authorize.go lines 28-41): true when some element of
`bs` equals some element of `as` directly or after `stripPort`. -/
def matchesAudience (as bs : List String) : Bool :=
  if bs.isEmpty || as.isEmpty then false
  else bs.any fun b => as.any fun a => b = a || stripPort a = stripPort b

/-! ## api/ssh.go : data model -/

/-- The fields of a `golang.org/x/crypto/ssh` certificate the core
manipulates: numeric certificate type (`ssh.UserCert` / `ssh.HostCert`),
serial, valid principals and the embedded public key's wire bytes (bytes
modelled as `Nat` with an explicit `< 256` well-formedness bound). -/
structure SSHCert where
  certType : Nat
  serial : Nat
  validPrincipals : List String
  keyBlob : List Nat
  deriving DecidableEq, Repr

/-- A parsed ssh public-key wire value: either a certificate or a bare
public key (`ssh.ParsePublicKey` returns the concrete kind; the codec's type
assertion distinguishes them). -/
inductive SSHPubValue
  | cert (c : SSHCert)
  | pubkey (blob : List Nat)
  deriving DecidableEq, Repr

/-- `templates.Output` (the template engine is outside src/).  Modelled from
the spec: a named, rendered text artifact. -/
structure Template where
  name : String
  content : String
  deriving DecidableEq, Repr

/-- `SSHConfigRequest` (ssh.go lines 148-151). -/
structure SSHConfigRequest where
  type : String
  data : List (String × String)
  deriving DecidableEq, Repr

/-- `SSHConfigRequest.Validate` (ssh.go lines 154-164).  Go mutates the
receiver (empty type becomes "user"); modelled by returning the updated
request. -/
def SSHConfigRequest.Validate (r : SSHConfigRequest) : Except String SSHConfigRequest :=
  if r.type = "" then .ok { r with type := SSHUserCert }
  else if r.type = SSHUserCert ∨ r.type = SSHHostCert then .ok r
  else .error ("unsupported type " ++ r.type)

/-- `SSHConfigResponse` (ssh.go lines 167-170). -/
structure SSHConfigResponse where
  userTemplates : List Template
  hostTemplates : List Template
  deriving DecidableEq, Repr

/-- The observable outcome of the `SSHConfig` HTTP handler. -/
inductive SSHConfigResult
  | badRequest (msg : String)
  | internalServerError (msg : String)
  | ok (resp : SSHConfigResponse)
  deriving DecidableEq, Repr

/-- `caHandler.SSHConfig` (ssh.go lines 265-294).  `getSSHConfig` is the
authority's `GetSSHConfig` collaborator.  The body-decoding step (`ReadJSON`)
is outside the embedding: the handler is modelled on the decoded request.
Note the host branch assigns the rendered templates to `userTemplates`,
exactly as line 287 of the source does. -/
def caHandler.SSHConfig
    (getSSHConfig : String → List (String × String) → Except String (List Template))
    (body : SSHConfigRequest) : SSHConfigResult :=
  match body.Validate with
  | .error e => .badRequest e
  | .ok body1 =>
    match getSSHConfig body1.type body1.data with
    | .error e => .internalServerError e
    | .ok ts =>
      if body1.type = SSHUserCert then .ok ⟨ts, []⟩
      else if body1.type = SSHHostCert then .ok ⟨ts, []⟩
      else .internalServerError "it should hot get here"

/-! ## The openssh wire codec

Modelled from the spec: `ssh.Certificate.Marshal` / `ssh.ParsePublicKey`
(golang.org/x/crypto/ssh, outside the repository) serialize certificates and
public keys to "the canonical binary certificate/public-key wire format"; the
parse reports the concrete kind of the parsed structure.  Modelled as a
length-prefixed binary format over the `SSHCert` fields with a leading tag
byte distinguishing certificates from bare public keys. -/

/-- Big-endian 4-byte encoding of a `uint32`. -/
def encU32 (n : Nat) : List Nat :=
  [n / 16777216 % 256, n / 65536 % 256, n / 256 % 256, n % 256]

/-- Read a big-endian `uint32` off the front of a byte stream. -/
def parseU32 : List Nat → Option (Nat × List Nat)
  | b0 :: b1 :: b2 :: b3 :: rest => some (((b0 * 256 + b1) * 256 + b2) * 256 + b3, rest)
  | _ => none

/-- Big-endian 8-byte encoding of a `uint64`. -/
def encU64 (n : Nat) : List Nat :=
  [n / 72057594037927936 % 256, n / 281474976710656 % 256,
   n / 1099511627776 % 256, n / 4294967296 % 256,
   n / 16777216 % 256, n / 65536 % 256, n / 256 % 256, n % 256]

/-- Read a big-endian `uint64` off the front of a byte stream. -/
def parseU64 : List Nat → Option (Nat × List Nat)
  | b0 :: b1 :: b2 :: b3 :: b4 :: b5 :: b6 :: b7 :: rest =>
    some (((((((b0 * 256 + b1) * 256 + b2) * 256 + b3) * 256 + b4) * 256 + b5) * 256
      + b6) * 256 + b7, rest)
  | _ => none

/-- Read `k` raw bytes off the front of a byte stream. -/
def parseBytes (k : Nat) (bs : List Nat) : Option (List Nat × List Nat) :=
  if k ≤ bs.length then some (bs.take k, bs.drop k) else none

/-- A length-prefixed byte string. -/
def encBytes (b : List Nat) : List Nat := encU32 b.length ++ b

/-- A length-prefixed character string (characters as their code points). -/
def encStr (s : String) : List Nat := encU32 s.data.length ++ s.data.map Char.toNat

/-- Read a length-prefixed string off the front of a byte stream. -/
def parseStr (bs : List Nat) : Option (String × List Nat) :=
  match parseU32 bs with
  | none => none
  | some (n, rest) =>
    match parseBytes n rest with
    | none => none
    | some (chars, rest2) => some (⟨chars.map Char.ofNat⟩, rest2)

/-- The concatenated encodings of a list of strings. -/
def encStrs : List String → List Nat
  | [] => []
  | s :: rest => encStr s ++ encStrs rest

/-- A count-prefixed list of strings. -/
def encStrList (l : List String) : List Nat := encU32 l.length ++ encStrs l

/-- Read `k` length-prefixed strings off the front of a byte stream. -/
def parseStrs : Nat → List Nat → Option (List String × List Nat)
  | 0, bs => some ([], bs)
  | k + 1, bs =>
    match parseStr bs with
    | none => none
    | some (s, rest) =>
      match parseStrs k rest with
      | none => none
      | some (l, rest2) => some (s :: l, rest2)

/-- Serialize a certificate or bare public key to wire bytes
(`Marshal` of golang.org/x/crypto/ssh, modelled). -/
def marshalWire : SSHPubValue → List Nat
  | .cert c =>
    0 :: (encU32 c.certType ++ (encU64 c.serial ++
      (encStrList c.validPrincipals ++ encBytes c.keyBlob)))
  | .pubkey b => 1 :: encBytes b

/-- Parse wire bytes back into a certificate or bare public key
(`ssh.ParsePublicKey`, modelled); trailing bytes are an error. -/
def parsePublicKey : List Nat → Option SSHPubValue
  | 0 :: rest => do
    let (ct, r1) ← parseU32 rest
    let (sn, r2) ← parseU64 r1
    let (cnt, r3) ← parseU32 r2
    let (prins, r4) ← parseStrs cnt r3
    let (blobLen, r5) ← parseU32 r4
    let (blob, r6) ← parseBytes blobLen r5
    if r6 = [] then some (.cert ⟨ct, sn, prins, blob⟩) else none
  | 1 :: rest => do
    let (blobLen, r1) ← parseU32 rest
    let (blob, r2) ← parseBytes blobLen r1
    if r2 = [] then some (.pubkey blob) else none
  | _ => none

/-- Well-formedness of a certificate: its machine-integer fields fit their
Go types and its byte strings are bytes. -/
def certWf (c : SSHCert) : Prop :=
  c.certType < 4294967296 ∧ c.serial < 18446744073709551616 ∧
    c.validPrincipals.length < 4294967296 ∧
    (∀ p ∈ c.validPrincipals, p.data.length < 4294967296 ∧ ∀ ch ∈ p.data, ch.toNat < 256) ∧
    c.keyBlob.length < 4294967296 ∧ ∀ b ∈ c.keyBlob, b < 256

/-- Well-formedness of a bare public key blob. -/
def blobWf (b : List Nat) : Prop :=
  b.length < 4294967296 ∧ ∀ x ∈ b, x < 256

/-! ## base64

Modelled from the spec: `encoding/base64` (Go standard library, outside the
repository), RFC 4648 standard alphabet with `=` padding, over bytes. -/

/-- The standard base64 alphabet. -/
def b64Alphabet : List Char :=
  "ABCDEFGHIJKLMNOPQRSTUVWXYZabcdefghijklmnopqrstuvwxyz0123456789+/".data

/-- The character for a six-bit group. -/
def b64Char (n : Nat) : Char := b64Alphabet.getD n '='

/-- Scan for a character, returning its position. -/
def b64IndexGo : List Char → Nat → Char → Option Nat
  | [], _, _ => none
  | a :: rest, i, c => if a = c then some i else b64IndexGo rest (i + 1) c

/-- The six-bit group of an alphabet character. -/
def b64Index (c : Char) : Option Nat := b64IndexGo b64Alphabet 0 c

/-- Encode bytes three at a time into four base64 characters, padding the
final one- or two-byte group with `=`. -/
def b64EncodeList : List Nat → List Char
  | [] => []
  | [x] =>
    let n := x * 65536
    [b64Char (n / 262144), b64Char (n / 4096 % 64), '=', '=']
  | [x, y] =>
    let n := x * 65536 + y * 256
    [b64Char (n / 262144), b64Char (n / 4096 % 64), b64Char (n / 64 % 64), '=']
  | x :: y :: z :: rest =>
    let n := x * 65536 + y * 256 + z
    b64Char (n / 262144) :: b64Char (n / 4096 % 64) :: b64Char (n / 64 % 64) ::
      b64Char (n % 64) :: b64EncodeList rest

/-- Decode base64 characters four at a time; padding is only legal in the
final group, and the input length must be a multiple of four. -/
def b64DecodeList : List Char → Option (List Nat)
  | [] => some []
  | c1 :: c2 :: c3 :: c4 :: rest =>
    match b64Index c1, b64Index c2 with
    | some a, some b =>
      if c3 = '=' then
        if c4 = '=' ∧ rest = [] then some [a * 4 + b / 16] else none
      else
        match b64Index c3 with
        | none => none
        | some c =>
          if c4 = '=' then
            if rest = [] then some [a * 4 + b / 16, b % 16 * 16 + c / 4] else none
          else
            match b64Index c4 with
            | none => none
            | some d =>
              match b64DecodeList rest with
              | none => none
              | some tl => some ((a * 4 + b / 16) :: (b % 16 * 16 + c / 4) ::
                  (c % 4 * 64 + d) :: tl)
    | _, _ => none
  | _ => none

/-- `base64.StdEncoding.EncodeToString`. -/
def base64Encode (bs : List Nat) : String := ⟨b64EncodeList bs⟩

/-- `base64.StdEncoding.DecodeString`. -/
def base64Decode (s : String) : Option (List Nat) := b64DecodeList s.data

/-! ## JSON string layer

Modelled from the spec / `encoding/json` (outside the repository):
`MarshalJSON` produces a quoted string or the literal `null`;
`json.Unmarshal` of a JSON string into a Go `string` unquotes it, and of
`null` leaves the Go string at its zero value `""` without error.  Escape
sequences never arise in base64 output; a candidate string containing a
quote or backslash is rejected rather than unescaped. -/

/-- Wrap a string in quotes. -/
def jsonQuote (s : String) : String := ⟨'"' :: (s.data ++ ['"'])⟩

/-- Recover the Go `string` that `json.Unmarshal` would produce from raw
JSON data: `null` leaves the zero value, a quoted escape-free string is
unquoted, anything else is an error. -/
def jsonUnquote (data : String) : Option String :=
  if data = "null" then some ""
  else
    match data.data with
    | c :: rest =>
      if c = '"' ∧ rest ≠ [] ∧ rest.getLast? = some '"' ∧
          rest.dropLast.all (fun ch => ch ≠ '"' ∧ ch ≠ '\\') then
        some ⟨rest.dropLast⟩
      else none
    | [] => none

/-! ## api/ssh.go : the SSHCertificate JSON codec -/

/-- `SSHCertificate.MarshalJSON` (ssh.go lines 69-75): `null` for a nil
certificate, otherwise the quoted base64 of the certificate's wire bytes. -/
def SSHCertificate.MarshalJSON : Option SSHCert → String
  | none => "null"
  | some c => jsonQuote (base64Encode (marshalWire (.cert c)))

/-- `SSHCertificate.UnmarshalJSON` (ssh.go lines 79-102): unquote, empty
string means nil, otherwise base64-decode, parse as a public-key wire value
and require the concrete kind to be a certificate. -/
def SSHCertificate.UnmarshalJSON (data : String) : Except String (Option SSHCert) :=
  match jsonUnquote data with
  | none => .error "error decoding certificate"
  | some s =>
    if s = "" then .ok none
    else
      match base64Decode s with
      | none => .error "error decoding ssh certificate"
      | some certData =>
        match parsePublicKey certData with
        | none => .error "error parsing ssh certificate"
        | some (.cert cert) => .ok (some cert)
        | some (.pubkey _) =>
          .error "error decoding ssh certificate: the value is not an *ssh.Certificate"

/-! ## api/ssh.go : the SignSSH handler -/

/-- `provisioner.SSHOptions` (certType, principals, validity window; the
`TimeDuration` values are opaque to the handler, modelled as `Int`). -/
structure SSHOptions where
  certType : String
  principals : List String
  validAfter : Int
  validBefore : Int
  deriving DecidableEq, Repr

/-- `SignSSHRequest` (ssh.go lines 25-33).  `PublicKey` is a byte slice
(`len == 0` covers both nil and empty); `AddUserPublicKey`'s nil/non-nil
distinction is an `Option`. -/
structure SignSSHRequest where
  publicKey : List Nat
  ott : String
  certType : String := ""
  principals : List String := []
  validAfter : Int := 0
  validBefore : Int := 0
  addUserPublicKey : Option (List Nat) := none
  deriving DecidableEq, Repr

/-- `SignSSHRequest.Validate` (ssh.go lines 36-47). -/
def SignSSHRequest.Validate (s : SignSSHRequest) : Except String Unit :=
  if s.certType ≠ "" ∧ s.certType ≠ SSHUserCert ∧ s.certType ≠ SSHHostCert then
    .error ("unknown certType " ++ s.certType)
  else if s.publicKey.length = 0 then .error "missing or empty publicKey"
  else if s.ott = "" then .error "missing or empty ott"
  else .ok ()

/-- The `SSHAuthority` collaborator interface of the handler (ssh.go lines
17-22), restricted to what `SignSSH` uses.  `authorize` already carries the
sign-ssh method context. -/
structure SSHAuthority where
  authorize : String → Except String (List SignOption)
  signSSH : SSHPubValue → SSHOptions → List SignOption → Except String SSHCert
  signSSHAddUser : SSHPubValue → SSHCert → Except String SSHCert

/-- The observable outcome of the `SignSSH` HTTP handler. -/
inductive SignSSHResult
  | badRequest (msg : String)
  | unauthorized (msg : String)
  | forbidden (msg : String)
  | created (crt : SSHCert) (addUserCrt : Option SSHCert)
  deriving DecidableEq, Repr

/-- `caHandler.SignSSH` (ssh.go lines 175-238) on a decoded request body.
The add-user conditional (lines 223-231): a companion certificate is
requested exactly when an add-user key was supplied, the issued certificate
is of user type and it has exactly one valid principal. -/
def caHandler.SignSSH (auth : SSHAuthority) (body : SignSSHRequest) : SignSSHResult :=
  match body.Validate with
  | .error e => .badRequest e
  | .ok _ =>
    match parsePublicKey body.publicKey with
    | none => .badRequest "error parsing publicKey"
    | some publicKey =>
      let addUserParsed : Except String (Option SSHPubValue) :=
        match body.addUserPublicKey with
        | none => .ok none
        | some bs =>
          match parsePublicKey bs with
          | none => .error "error parsing addUserPublicKey"
          | some k => .ok (some k)
      match addUserParsed with
      | .error e => .badRequest e
      | .ok addUserPubKey =>
        match auth.authorize body.ott with
        | .error e => .unauthorized e
        | .ok signOpts =>
          let opts : SSHOptions :=
            ⟨body.certType, body.principals, body.validAfter, body.validBefore⟩
          match auth.signSSH publicKey opts signOpts with
          | .error e => .forbidden e
          | .ok cert =>
            match addUserPubKey with
            | some addKey =>
              if cert.certType = sshUserCert ∧ cert.validPrincipals.length = 1 then
                match auth.signSSHAddUser addKey cert with
                | .error e => .forbidden e
                | .ok addUserCert => .created cert (some addUserCert)
              else .created cert none
            | none => .created cert none

/-- Modelled from the spec: `Authority.SignSSHAddUser` (authority
implementation not under src/) "issue[s] a second certificate scoped to add
that single principal as a new account, bound to the secondary key" — a
user-type certificate carrying the primary certificate's principals and
embedding the secondary key's wire bytes. -/
def specSignSSHAddUser (key : SSHPubValue) (primary : SSHCert) : SSHCert :=
  { certType := sshUserCert
    serial := primary.serial
    validPrincipals := primary.validPrincipals
    keyBlob := marshalWire key }

/-! ## Helper lemmas about the replay map and the pipeline -/

theorem lookupId_append_self (m : List (String × IdUsed)) (k : String) (v : IdUsed)
    (h : lookupId m k = none) : lookupId (m ++ [(k, v)]) k = some v := by
  induction m with
  | nil => simp [lookupId]
  | cons hd tl ih =>
    obtain ⟨k', v'⟩ := hd
    by_cases hk : k' = k
    · simp [lookupId, hk] at h
    · simp [lookupId, hk] at h ⊢
      exact ih h

/-- Shared helper: a token whose id is already in the replay map is rejected
with the replay error and the map is unchanged. -/
theorem authorize_used_helper (parseToken : String → Option Claims) (a : Authority)
    (now : Int) (ott : String) (claims : Claims) (p : Provisioner) (u : IdUsed)
    (hparse : parseToken ott = some claims)
    (hguard : issuedAtGuardRejects a claims = false)
    (hprov : a.provisioners ott claims = some p)
    (hjwk : p.ptype = ProvisionerType.TypeJWK)
    (hid : claims.id ≠ "")
    (hused : lookupId a.ottMap claims.id = some u) :
    Authority.Authorize parseToken a now ott =
      (.error (.api "token already used" 401), a.ottMap) := by
  unfold Authority.Authorize authorizeResolved loadOrStore
  simp [hparse, hguard, hprov, hjwk, hid, hused]

/-- Shared helper: a token with a fresh id is recorded and then delegated
verbatim to the provisioner's own authorization. -/
theorem authorize_fresh_helper (parseToken : String → Option Claims) (a : Authority)
    (now : Int) (ott : String) (claims : Claims) (p : Provisioner)
    (hparse : parseToken ott = some claims)
    (hguard : issuedAtGuardRejects a claims = false)
    (hprov : a.provisioners ott claims = some p)
    (hjwk : p.ptype = ProvisionerType.TypeJWK)
    (hid : claims.id ≠ "")
    (hfresh : lookupId a.ottMap claims.id = none) :
    Authority.Authorize parseToken a now ott =
      ((match p.authorize ott with
        | .ok opts => .ok opts
        | .error e => .error (.prov e)),
       a.ottMap ++ [(claims.id, ⟨now, claims.subject⟩)]) := by
  unfold Authority.Authorize authorizeResolved loadOrStore
  simp [hparse, hguard, hprov, hjwk, hid, hfresh]
  cases p.authorize ott <;> simp

/-! ## C3 -/

/-- C3: a token routed to a JWK provisioner whose non-empty id is already
recorded fails with the Unauthenticated (401) "token already used" error.
The provisioner's own verification routine `p.authorize` is universally
quantified (only its type is pinned) and does not occur in the conclusion:
the pipeline never delegates to it. -/
theorem authorize_replayed_token_rejected (parseToken : String → Option Claims)
    (a : Authority) (now : Int) (ott : String) (claims : Claims) (p : Provisioner)
    (u : IdUsed)
    (hparse : parseToken ott = some claims)
    (hguard : issuedAtGuardRejects a claims = false)
    (hprov : a.provisioners ott claims = some p)
    (hjwk : p.ptype = ProvisionerType.TypeJWK)
    (hid : claims.id ≠ "")
    (hused : lookupId a.ottMap claims.id = some u) :
    Authority.Authorize parseToken a now ott =
      (.error (.api "token already used" 401), a.ottMap) :=
  authorize_used_helper parseToken a now ott claims p u hparse hguard hprov hjwk hid hused

theorem authorize_replayed_token_rejected_witness :
    Authority.Authorize (fun _ => some { id := "tok-1", subject := "alice" })
      ⟨some ⟨false⟩, 100, fun _ _ => some ⟨ProvisionerType.TypeJWK, fun _ => .ok [⟨7⟩]⟩,
        [("tok-1", ⟨50, "alice"⟩)]⟩ 60 "ott" =
      (.error (.api "token already used" 401), [("tok-1", ⟨50, "alice"⟩)]) :=
  authorize_replayed_token_rejected _ _ 60 "ott" _ _ ⟨50, "alice"⟩
    rfl rfl rfl rfl (by decide) rfl

/-! ## C4 -/

/-- C4: for a fresh non-empty id routed to a JWK provisioner, the id is
recorded strictly before delegation: the result is the provisioner's own
verdict verbatim (so this holds whether verification succeeds or fails), the
replay map holds the id afterwards in every case, and a resubmission of the
same token against the updated authority fails with the replay error. -/
theorem authorize_records_id_before_delegation (parseToken : String → Option Claims)
    (a : Authority) (now now2 : Int) (ott : String) (claims : Claims) (p : Provisioner)
    (hparse : parseToken ott = some claims)
    (hguard : issuedAtGuardRejects a claims = false)
    (hprov : a.provisioners ott claims = some p)
    (hjwk : p.ptype = ProvisionerType.TypeJWK)
    (hid : claims.id ≠ "")
    (hfresh : lookupId a.ottMap claims.id = none) :
    (Authority.Authorize parseToken a now ott).1 =
      (match p.authorize ott with
        | .ok opts => .ok opts
        | .error e => .error (.prov e)) ∧
    lookupId (Authority.Authorize parseToken a now ott).2 claims.id =
      some ⟨now, claims.subject⟩ ∧
    (Authority.Authorize parseToken
        { a with ottMap := (Authority.Authorize parseToken a now ott).2 } now2 ott).1 =
      .error (.api "token already used" 401) := by
  have h1 := authorize_fresh_helper parseToken a now ott claims p
    hparse hguard hprov hjwk hid hfresh
  refine ⟨by rw [h1], ?_, ?_⟩
  · rw [h1]
    exact lookupId_append_self a.ottMap claims.id _ hfresh
  · have h2 := authorize_used_helper parseToken
      { a with ottMap := (Authority.Authorize parseToken a now ott).2 } now2 ott claims p
      ⟨now, claims.subject⟩ hparse hguard hprov hjwk hid
      (by rw [h1]; exact lookupId_append_self a.ottMap claims.id _ hfresh)
    rw [h2]

theorem authorize_records_id_before_delegation_witness :
    (Authority.Authorize (fun _ => some { id := "tok-2", subject := "bob" })
        ⟨some ⟨false⟩, 100, fun _ _ => some ⟨ProvisionerType.TypeJWK,
          fun _ => .error "bad signature"⟩, []⟩ 60 "ott").1 =
      .error (.prov "bad signature") ∧
    lookupId (Authority.Authorize (fun _ => some { id := "tok-2", subject := "bob" })
        ⟨some ⟨false⟩, 100, fun _ _ => some ⟨ProvisionerType.TypeJWK,
          fun _ => .error "bad signature"⟩, []⟩ 60 "ott").2 "tok-2" =
      some ⟨60, "bob"⟩ ∧
    (Authority.Authorize (fun _ => some { id := "tok-2", subject := "bob" })
        { (⟨some ⟨false⟩, 100, fun _ _ => some ⟨ProvisionerType.TypeJWK,
            fun _ => .error "bad signature"⟩, []⟩ : Authority) with
          ottMap := (Authority.Authorize (fun _ => some { id := "tok-2", subject := "bob" })
            ⟨some ⟨false⟩, 100, fun _ _ => some ⟨ProvisionerType.TypeJWK,
              fun _ => .error "bad signature"⟩, []⟩ 60 "ott").2 } 61 "ott").1 =
      .error (.api "token already used" 401) :=
  authorize_records_id_before_delegation
    (fun _ => some { id := "tok-2", subject := "bob" })
    ⟨some ⟨false⟩, 100, fun _ _ => some ⟨ProvisionerType.TypeJWK,
      fun _ => .error "bad signature"⟩, []⟩
    60 61 "ott" { id := "tok-2", subject := "bob" }
    ⟨ProvisionerType.TypeJWK, fun _ => .error "bad signature"⟩
    rfl rfl rfl rfl (by decide) rfl

/-! ## C9 -/

/-- C9: a token whose claims carry no issued-at value (issued-at equal to
zero, the Go zero value) is never rejected by the bootstrap guard, even when
the check is enabled — the pipeline proceeds to provisioner resolution — and
in general the guard only fires for strictly positive issued-at values. -/
theorem authorize_zero_issuedAt_skips_guard (parseToken : String → Option Claims)
    (a : Authority) (now : Int) (ott : String) (claims : Claims)
    (hparse : parseToken ott = some claims)
    (hzero : claims.issuedAt = 0) :
    Authority.Authorize parseToken a now ott = authorizeResolved a now ott claims ∧
    ∀ c : Claims, issuedAtGuardRejects a c = true → 0 < c.issuedAt := by
  constructor
  · unfold Authority.Authorize
    rw [hparse]
    have hguard : issuedAtGuardRejects a claims = false := by
      unfold issuedAtGuardRejects
      cases a.authorityConfig <;> simp [hzero]
    simp [hguard]
  · intro c hc
    unfold issuedAtGuardRejects at hc
    cases hcfg : a.authorityConfig with
    | none => rw [hcfg] at hc; simp at hc
    | some cfg =>
      rw [hcfg] at hc
      simp only [Bool.and_eq_true, decide_eq_true_eq] at hc
      exact hc.2.1

theorem authorize_zero_issuedAt_skips_guard_witness :
    Authority.Authorize (fun _ => some { issuedAt := 0, id := "tok-3" })
        ⟨some ⟨false⟩, 100, fun _ _ => some ⟨ProvisionerType.TypeJWK,
          fun _ => .ok [⟨7⟩]⟩, []⟩ 60 "ott" =
      authorizeResolved
        ⟨some ⟨false⟩, 100, fun _ _ => some ⟨ProvisionerType.TypeJWK,
          fun _ => .ok [⟨7⟩]⟩, []⟩ 60 "ott" { issuedAt := 0, id := "tok-3" } ∧
    ∀ c : Claims,
      issuedAtGuardRejects
        ⟨some ⟨false⟩, 100, fun _ _ => some ⟨ProvisionerType.TypeJWK,
          fun _ => .ok [⟨7⟩]⟩, []⟩ c = true → 0 < c.issuedAt :=
  authorize_zero_issuedAt_skips_guard
    (fun _ => some { issuedAt := 0, id := "tok-3" })
    ⟨some ⟨false⟩, 100, fun _ _ => some ⟨ProvisionerType.TypeJWK,
      fun _ => .ok [⟨7⟩]⟩, []⟩ 60 "ott" { issuedAt := 0, id := "tok-3" } rfl rfl

/-! ## C5 -/

/-- C5 counterexample: the issued-at check is enabled
(`AuthorityConfig` present, `DisableIssuedAtCheck` false), the token's
issued-at value `0` is strictly before the start time `100`
(`(0 : Int) < 100`), yet `Authorize` succeeds instead of rejecting with the
Unauthenticated bootstrap error: the code additionally requires
`claims.IssuedAt > 0`. -/
theorem authorize_issuedAt_zero_not_rejected :
    (Authority.Authorize (fun _ => some { issuedAt := 0 })
        ⟨some ⟨false⟩, 100, fun _ _ => some ⟨ProvisionerType.TypeOIDC,
          fun _ => .ok [⟨7⟩]⟩, []⟩ 60 "ott").1 = .ok [⟨7⟩] ∧
    (0 : Int) < 100 := by
  exact ⟨rfl, by decide⟩

/-- C5 as amended: when the issued-at check is enabled, every parseable
token with a strictly positive issued-at strictly before the authority's
start time is rejected with the Unauthenticated bootstrap error; when the
check is disabled the token is not rejected on this ground and proceeds to
the rest of the pipeline. -/
theorem authorize_issuedAt_guard_amended (parseToken : String → Option Claims)
    (a : Authority) (now : Int) (ott : String) (claims : Claims) (cfg : AuthorityConfig)
    (hparse : parseToken ott = some claims)
    (hcfg : a.authorityConfig = some cfg) :
    (cfg.disableIssuedAtCheck = false → 0 < claims.issuedAt →
      claims.issuedAt < a.startTime →
      Authority.Authorize parseToken a now ott =
        (.error (.api "token issued before the bootstrap of certificate authority" 401),
          a.ottMap)) ∧
    (cfg.disableIssuedAtCheck = true →
      Authority.Authorize parseToken a now ott = authorizeResolved a now ott claims) := by
  constructor
  · intro hdis hpos hlt
    have hguard : issuedAtGuardRejects a claims = true := by
      unfold issuedAtGuardRejects
      rw [hcfg]
      simp [hdis, hpos, hlt]
    unfold Authority.Authorize
    rw [hparse]
    simp [hguard]
  · intro hdis
    have hguard : issuedAtGuardRejects a claims = false := by
      unfold issuedAtGuardRejects
      rw [hcfg]
      simp [hdis]
    unfold Authority.Authorize
    rw [hparse]
    simp [hguard]

theorem authorize_issuedAt_guard_amended_witness :
    ((false = false → (0 : Int) < 50 → (50 : Int) < 100 →
      Authority.Authorize (fun _ => some { issuedAt := 50 })
          ⟨some ⟨false⟩, 100, fun _ _ => some ⟨ProvisionerType.TypeOIDC,
            fun _ => .ok [⟨7⟩]⟩, []⟩ 60 "ott" =
        (.error (.api "token issued before the bootstrap of certificate authority" 401),
          [])) ∧
    (false = true →
      Authority.Authorize (fun _ => some { issuedAt := 50 })
          ⟨some ⟨false⟩, 100, fun _ _ => some ⟨ProvisionerType.TypeOIDC,
            fun _ => .ok [⟨7⟩]⟩, []⟩ 60 "ott" =
        authorizeResolved
          ⟨some ⟨false⟩, 100, fun _ _ => some ⟨ProvisionerType.TypeOIDC,
            fun _ => .ok [⟨7⟩]⟩, []⟩ 60 "ott" { issuedAt := 50 })) :=
  authorize_issuedAt_guard_amended (fun _ => some { issuedAt := 50 })
    ⟨some ⟨false⟩, 100, fun _ _ => some ⟨ProvisionerType.TypeOIDC,
      fun _ => .ok [⟨7⟩]⟩, []⟩ 60 "ott" { issuedAt := 50 } ⟨false⟩ rfl rfl

/-! ## C8

Concurrent submissions contend on the replay map's single atomic
`LoadOrStore` step (a `sync.Map`), so every concurrent execution of `N`
submissions of the same token linearizes to some sequential order of the `N`
`Authorize` calls, each seeing the map state left by the previous one.
`authorizeRun` is that linearization; all `N` submissions are identical, so
it covers every arrival order. -/

/-- Run `n` submissions of the same token one after the other, threading the
replay map. -/
def authorizeRun (parseToken : String → Option Claims) (now : Int) (ott : String) :
    Nat → Authority → List (Except AuthorizeError (List SignOption))
  | 0, _ => []
  | n + 1, a =>
    let r := Authority.Authorize parseToken a now ott
    r.1 :: authorizeRun parseToken now ott n { a with ottMap := r.2 }

/-- Once the id is recorded, every further submission fails with the replay
error. -/
theorem authorizeRun_used (parseToken : String → Option Claims) (now : Int)
    (ott : String) (claims : Claims) (p : Provisioner) (u : IdUsed) :
    ∀ (n : Nat) (a : Authority),
    parseToken ott = some claims →
    issuedAtGuardRejects a claims = false →
    a.provisioners ott claims = some p →
    p.ptype = ProvisionerType.TypeJWK →
    claims.id ≠ "" →
    lookupId a.ottMap claims.id = some u →
    authorizeRun parseToken now ott n a =
      List.replicate n (.error (.api "token already used" 401))
  | 0, _, _, _, _, _, _, _ => rfl
  | n + 1, a, hparse, hguard, hprov, hjwk, hid, hused => by
    have h1 := authorize_used_helper parseToken a now ott claims p u
      hparse hguard hprov hjwk hid hused
    unfold authorizeRun
    rw [h1]
    simp only [List.replicate_succ, List.cons.injEq, eq_self_iff_true, true_and]
    exact authorizeRun_used parseToken now ott claims p u n { a with ottMap := a.ottMap }
      hparse hguard hprov hjwk hid hused

/-- C8: `N ≥ 1` submissions of a fresh single-use token: the first is
delegated verbatim to provisioner verification, the other `N - 1` all fail
with the replay error, and the delegated outcome is never the replay error —
exactly one submission proceeds, whatever the arrival order of the identical
submissions in the linearization. -/
theorem authorize_at_most_once (parseToken : String → Option Claims) (a : Authority)
    (now : Int) (ott : String) (claims : Claims) (p : Provisioner) (N : Nat)
    (hparse : parseToken ott = some claims)
    (hguard : issuedAtGuardRejects a claims = false)
    (hprov : a.provisioners ott claims = some p)
    (hjwk : p.ptype = ProvisionerType.TypeJWK)
    (hid : claims.id ≠ "")
    (hfresh : lookupId a.ottMap claims.id = none)
    (hN : 1 ≤ N) :
    authorizeRun parseToken now ott N a =
      (match p.authorize ott with
        | .ok opts => .ok opts
        | .error e => .error (.prov e)) ::
        List.replicate (N - 1) (.error (.api "token already used" 401)) ∧
    (match p.authorize ott with
      | .ok opts => (.ok opts : Except AuthorizeError (List SignOption))
      | .error e => .error (.prov e)) ≠
      .error (.api "token already used" 401) := by
  constructor
  · obtain ⟨n, rfl⟩ : ∃ n, N = n + 1 := ⟨N - 1, by omega⟩
    have h1 := authorize_fresh_helper parseToken a now ott claims p
      hparse hguard hprov hjwk hid hfresh
    unfold authorizeRun
    rw [h1]
    simp only [Nat.add_sub_cancel, List.cons.injEq, true_and]
    exact authorizeRun_used parseToken now ott claims p ⟨now, claims.subject⟩ n
      { a with ottMap := a.ottMap ++ [(claims.id, ⟨now, claims.subject⟩)] }
      hparse hguard hprov hjwk hid
      (lookupId_append_self a.ottMap claims.id _ hfresh)
  · cases p.authorize ott <;> simp

theorem authorize_at_most_once_witness :
    authorizeRun (fun _ => some { id := "tok-4", subject := "carol" }) 60 "ott" 3
        ⟨some ⟨false⟩, 100, fun _ _ => some ⟨ProvisionerType.TypeJWK,
          fun _ => .ok [⟨9⟩]⟩, []⟩ =
      .ok [⟨9⟩] ::
        List.replicate 2 (.error (.api "token already used" 401)) ∧
    (.ok [⟨9⟩] : Except AuthorizeError (List SignOption)) ≠
      .error (.api "token already used" 401) :=
  authorize_at_most_once (fun _ => some { id := "tok-4", subject := "carol" })
    ⟨some ⟨false⟩, 100, fun _ _ => some ⟨ProvisionerType.TypeJWK,
      fun _ => .ok [⟨9⟩]⟩, []⟩ 60 "ott" { id := "tok-4", subject := "carol" }
    ⟨ProvisionerType.TypeJWK, fun _ => .ok [⟨9⟩]⟩ 3
    rfl rfl rfl rfl (by decide) rfl (by decide)

/-! ## C10 -/

/-- C10: whenever `SSHConfigRequest.Validate` succeeds, the (possibly
rewritten) request type is exactly "user" or "host", and consequently the
`SSHConfig` handler's type switch resolves to one of its two known branches:
its default branch — the internal "it should hot get here" error — is never
taken (the handler's outcome is fully determined by the template lookup). -/
theorem sshConfig_validated_type_known (r r' : SSHConfigRequest)
    (h : r.Validate = .ok r') :
    (r'.type = SSHUserCert ∨ r'.type = SSHHostCert) ∧
    ∀ g : String → List (String × String) → Except String (List Template),
      caHandler.SSHConfig g r =
        (match g r'.type r'.data with
          | .error e => .internalServerError e
          | .ok ts => .ok ⟨ts, []⟩) := by
  have htype : r'.type = SSHUserCert ∨ r'.type = SSHHostCert := by
    unfold SSHConfigRequest.Validate at h
    split at h
    · injection h with h2
      rw [← h2]
      exact Or.inl rfl
    · split at h
      · rename_i hty
        injection h with h2
        rw [← h2]
        exact hty
      · exact Except.noConfusion h
  refine ⟨htype, fun g => ?_⟩
  unfold caHandler.SSHConfig
  simp only [h]
  rcases htype with hty | hty
  · rw [hty]
    cases hg : g SSHUserCert r'.data with
    | error e => simp [hg]
    | ok ts =>
      simp [hg]
  · rw [hty]
    cases hg : g SSHHostCert r'.data with
    | error e => simp [hg]
    | ok ts =>
      simp [hg]

theorem sshConfig_validated_type_known_witness :
    ((SSHHostCert = SSHUserCert ∨ SSHHostCert = SSHHostCert) ∧
    ∀ g : String → List (String × String) → Except String (List Template),
      caHandler.SSHConfig g ⟨"host", [("Name", "x")]⟩ =
        (match g "host" [("Name", "x")] with
          | .error e => .internalServerError e
          | .ok ts => .ok ⟨ts, []⟩)) :=
  sshConfig_validated_type_known ⟨"host", [("Name", "x")]⟩ ⟨"host", [("Name", "x")]⟩ rfl

/-! ## C1 -/

/-- C1 (the source's copy/paste slip, evaluated): a config request of type
"host" whose template rendering succeeds yields 200 with the rendered
artifact placed in `userTemplates` and an empty `hostTemplates` — not, as
specified, in `hostTemplates`. -/
theorem sshConfig_host_templates_misassigned :
    caHandler.SSHConfig (fun _ _ => .ok [⟨"sshd_config", "rendered for x"⟩])
        ⟨"host", [("Name", "x")]⟩ =
      .ok ⟨[⟨"sshd_config", "rendered for x"⟩], []⟩ ∧
    [⟨"sshd_config", "rendered for x"⟩] ≠ ([] : List Template) := by
  exact ⟨rfl, by decide⟩

/-! ## C2 -/

/-- C2: in a `SignSSH` run that reaches issuance (request valid, keys parse,
authorization and primary signing succeed, and the authority's add-user
signer behaves as the spec describes), the add-user companion certificate is
in the response exactly when a secondary key was supplied, the issued
certificate is of user type and it carries exactly one principal; a host
certificate or a multi-principal user certificate never gets one even with a
secondary key supplied; and when issued it carries the primary certificate's
single principal and embeds the secondary key. -/
theorem signSSH_addUser_rule (auth : SSHAuthority) (body : SignSSHRequest)
    (pk : SSHPubValue) (signOpts : List SignOption) (cert : SSHCert)
    (hval : body.Validate = .ok ())
    (hpk : parsePublicKey body.publicKey = some pk)
    (hauth : auth.authorize body.ott = .ok signOpts)
    (hsign : auth.signSSH pk
      ⟨body.certType, body.principals, body.validAfter, body.validBefore⟩ signOpts =
        .ok cert)
    (haddimpl : auth.signSSHAddUser = fun k c => .ok (specSignSSHAddUser k c)) :
    (body.addUserPublicKey = none → caHandler.SignSSH auth body = .created cert none) ∧
    ∀ bs addKey, body.addUserPublicKey = some bs → parsePublicKey bs = some addKey →
      ((cert.certType = sshUserCert ∧ cert.validPrincipals.length = 1 →
        caHandler.SignSSH auth body =
          .created cert (some
            { certType := sshUserCert
              serial := cert.serial
              validPrincipals := cert.validPrincipals
              keyBlob := marshalWire addKey })) ∧
      (¬(cert.certType = sshUserCert ∧ cert.validPrincipals.length = 1) →
        caHandler.SignSSH auth body = .created cert none)) := by
  constructor
  · intro hnone
    unfold caHandler.SignSSH
    simp only [hval, hpk, hnone, hauth, hsign]
  · intro bs addKey hsome hparseKey
    constructor
    · intro hcond
      unfold caHandler.SignSSH
      simp only [hval, hpk, hsome, hparseKey, hauth, hsign, haddimpl,
        specSignSSHAddUser, if_pos hcond]
    · intro hcond
      unfold caHandler.SignSSH
      simp only [hval, hpk, hsome, hparseKey, hauth, hsign, if_neg hcond]

/-- Concrete authority for the C2 witness: primary signing issues a
single-principal user certificate; the add-user signer follows the spec
model. -/
def exAuth : SSHAuthority :=
  ⟨fun _ => .ok [], fun _ _ _ => .ok ⟨1, 0, ["alice"], [9]⟩,
    fun k c => .ok (specSignSSHAddUser k c)⟩

/-- Concrete request for the C2 witness: both key fields are the wire bytes
of bare public keys. -/
def exBody : SignSSHRequest :=
  ⟨[1, 0, 0, 0, 1, 9], "ott", "user", ["alice"], 0, 0, some [1, 0, 0, 0, 1, 8]⟩

/-- The certificate `exAuth` issues. -/
def exCert : SSHCert := ⟨1, 0, ["alice"], [9]⟩

theorem signSSH_addUser_rule_witness :
    (exBody.addUserPublicKey = none →
      caHandler.SignSSH exAuth exBody = .created exCert none) ∧
    ∀ bs addKey, exBody.addUserPublicKey = some bs → parsePublicKey bs = some addKey →
      ((exCert.certType = sshUserCert ∧ exCert.validPrincipals.length = 1 →
        caHandler.SignSSH exAuth exBody =
          .created exCert (some
            { certType := sshUserCert
              serial := exCert.serial
              validPrincipals := exCert.validPrincipals
              keyBlob := marshalWire addKey })) ∧
      (¬(exCert.certType = sshUserCert ∧ exCert.validPrincipals.length = 1) →
        caHandler.SignSSH exAuth exBody = .created exCert none)) :=
  signSSH_addUser_rule exAuth exBody (.pubkey [9]) [] exCert rfl rfl rfl rfl rfl

/-! ## C6 -/

/-- C6: `matchesAudience` holds exactly when some configured audience and
some token audience agree after `stripPort` normalization (the direct
equality disjunct of the source is subsumed, `stripPort` being a function,
so the match is symmetric and port-insensitive); in particular a provisioner
configured with `https://ca.example/sign` accepts the token audience
`https://ca.example:8443/sign` and rejects `https://other.example/sign`. -/
theorem matchesAudience_strip_port_iff :
    (∀ as bs : List String, matchesAudience as bs = true ↔
      ∃ a ∈ as, ∃ b ∈ bs, stripPort a = stripPort b) ∧
    matchesAudience ["https://ca.example/sign"] ["https://ca.example:8443/sign"] = true ∧
    matchesAudience ["https://ca.example/sign"] ["https://other.example/sign"] = false := by
  refine ⟨?_, by decide, by decide⟩
  intro as bs
  constructor
  · intro h
    unfold matchesAudience at h
    split at h
    · exact absurd h (by simp)
    · simp only [List.any_eq_true, Bool.or_eq_true, decide_eq_true_eq] at h
      obtain ⟨b, hb, a, ha, hab⟩ := h
      refine ⟨a, ha, b, hb, ?_⟩
      rcases hab with h1 | h2
      · rw [h1]
      · exact h2
  · rintro ⟨a, ha, b, hb, hab⟩
    unfold matchesAudience
    split
    · rename_i hemp
      simp only [Bool.or_eq_true, List.isEmpty_iff] at hemp
      rcases hemp with hemp | hemp
      · rw [hemp] at hb
        exact absurd hb (List.not_mem_nil b)
      · rw [hemp] at ha
        exact absurd ha (List.not_mem_nil a)
    · simp only [List.any_eq_true, Bool.or_eq_true, decide_eq_true_eq]
      exact ⟨b, hb, a, ha, Or.inr hab⟩

/-! ## Wire codec round-trip lemmas -/

theorem parseU32_encU32 (n : Nat) (r : List Nat) (h : n < 4294967296) :
    parseU32 (encU32 n ++ r) = some (n, r) := by
  simp only [encU32, parseU32, List.cons_append, List.nil_append]
  refine congrArg some (Prod.ext ?_ rfl)
  simp only
  omega

theorem parseU64_encU64 (n : Nat) (r : List Nat) (h : n < 18446744073709551616) :
    parseU64 (encU64 n ++ r) = some (n, r) := by
  simp only [encU64, parseU64, List.cons_append, List.nil_append]
  refine congrArg some (Prod.ext ?_ rfl)
  simp only
  omega

theorem parseBytes_append (l r : List Nat) : parseBytes l.length (l ++ r) = some (l, r) := by
  unfold parseBytes
  rw [if_pos (by simp), List.take_left, List.drop_left]

theorem map_ofNat_toNat : ∀ l : List Char, (l.map Char.toNat).map Char.ofNat = l := by
  intro l
  induction l with
  | nil => rfl
  | cons c t ih => simp [ih, Char.ofNat_toNat]

theorem parseStr_encStr (s : String) (r : List Nat) (h : s.data.length < 4294967296) :
    parseStr (encStr s ++ r) = some (s, r) := by
  unfold parseStr encStr
  rw [List.append_assoc, parseU32_encU32 _ _ h]
  simp only []
  have hlen : s.data.length = (s.data.map Char.toNat).length := by simp
  rw [hlen, parseBytes_append]
  simp only [map_ofNat_toNat]

theorem parseStrs_encStrs : ∀ (l : List String) (r : List Nat),
    (∀ p ∈ l, p.data.length < 4294967296) →
    parseStrs l.length (encStrs l ++ r) = some (l, r) := by
  intro l
  induction l with
  | nil => intro r _; rfl
  | cons s t ih =>
    intro r hwf
    show parseStrs (t.length + 1) ((encStr s ++ encStrs t) ++ r) = some (s :: t, r)
    unfold parseStrs
    rw [List.append_assoc, parseStr_encStr s _ (hwf s (by simp))]
    simp only []
    rw [ih r (fun p hp => hwf p (by simp [hp]))]

/-- The wire round trip: parsing the serialization of a well-formed value
recovers it exactly. -/
theorem parsePublicKey_marshalWire_cert (c : SSHCert) (h : certWf c) :
    parsePublicKey (marshalWire (.cert c)) = some (.cert c) := by
  obtain ⟨h1, h2, h3, h4, h5, h6⟩ := h
  show parsePublicKey (0 :: (encU32 c.certType ++ (encU64 c.serial ++
    (encStrList c.validPrincipals ++ encBytes c.keyBlob)))) = some (.cert c)
  unfold parsePublicKey
  simp only []
  rw [parseU32_encU32 _ _ h1]
  simp only [Option.bind_eq_bind, Option.some_bind]
  rw [parseU64_encU64 _ _ h2]
  simp only [Option.some_bind]
  unfold encStrList
  rw [List.append_assoc, parseU32_encU32 _ _ h3]
  simp only [Option.some_bind]
  rw [parseStrs_encStrs c.validPrincipals _ (fun p hp => (h4 p hp).1)]
  simp only [Option.some_bind]
  unfold encBytes
  rw [parseU32_encU32 _ _ h5]
  simp only [Option.some_bind]
  have : parseBytes c.keyBlob.length (c.keyBlob ++ []) = some (c.keyBlob, []) :=
    parseBytes_append c.keyBlob []
  rw [List.append_nil] at this
  rw [this]
  simp

theorem parsePublicKey_marshalWire_pubkey (b : List Nat) (h : blobWf b) :
    parsePublicKey (marshalWire (.pubkey b)) = some (.pubkey b) := by
  show parsePublicKey (1 :: encBytes b) = some (.pubkey b)
  unfold parsePublicKey encBytes
  simp only []
  rw [parseU32_encU32 _ _ h.1]
  simp only [Option.bind_eq_bind, Option.some_bind]
  have : parseBytes b.length (b ++ []) = some (b, []) := parseBytes_append b []
  rw [List.append_nil] at this
  rw [this]
  simp

/-! ## Byte-range lemmas: a well-formed value serializes to bytes -/

theorem encU32_mem_lt (n : Nat) : ∀ b ∈ encU32 n, b < 256 := by
  simp only [encU32, List.mem_cons, List.not_mem_nil, or_false]
  intro b hb
  rcases hb with h | h | h | h <;> omega

theorem encU64_mem_lt (n : Nat) : ∀ b ∈ encU64 n, b < 256 := by
  simp only [encU64, List.mem_cons, List.not_mem_nil, or_false]
  intro b hb
  rcases hb with h | h | h | h | h | h | h | h <;> omega

theorem encStr_mem_lt (s : String) (h : ∀ ch ∈ s.data, ch.toNat < 256) :
    ∀ b ∈ encStr s, b < 256 := by
  intro b hb
  unfold encStr at hb
  rw [List.mem_append] at hb
  rcases hb with hb | hb
  · exact encU32_mem_lt _ b hb
  · obtain ⟨ch, hch, rfl⟩ := List.mem_map.mp hb
    exact h ch hch

theorem encStrs_mem_lt : ∀ (l : List String),
    (∀ p ∈ l, ∀ ch ∈ p.data, ch.toNat < 256) → ∀ b ∈ encStrs l, b < 256 := by
  intro l
  induction l with
  | nil => intro _ b hb; exact absurd hb (List.not_mem_nil b)
  | cons s t ih =>
    intro hwf b hb
    show b < 256
    rw [show encStrs (s :: t) = encStr s ++ encStrs t from rfl, List.mem_append] at hb
    rcases hb with hb | hb
    · exact encStr_mem_lt s (hwf s (by simp)) b hb
    · exact ih (fun p hp => hwf p (by simp [hp])) b hb

theorem marshalWire_cert_mem_lt (c : SSHCert) (h : certWf c) :
    ∀ b ∈ marshalWire (.cert c), b < 256 := by
  obtain ⟨h1, h2, h3, h4, h5, h6⟩ := h
  intro b hb
  show b < 256
  rw [show marshalWire (.cert c) = 0 :: (encU32 c.certType ++ (encU64 c.serial ++
      (encStrList c.validPrincipals ++ encBytes c.keyBlob))) from rfl] at hb
  rcases List.mem_cons.mp hb with hb | hb
  · omega
  rw [List.mem_append] at hb
  rcases hb with hb | hb
  · exact encU32_mem_lt _ b hb
  rw [List.mem_append] at hb
  rcases hb with hb | hb
  · exact encU64_mem_lt _ b hb
  rw [List.mem_append] at hb
  rcases hb with hb | hb
  · unfold encStrList at hb
    rw [List.mem_append] at hb
    rcases hb with hb | hb
    · exact encU32_mem_lt _ b hb
    · exact encStrs_mem_lt c.validPrincipals (fun p hp => (h4 p hp).2) b hb
  · unfold encBytes at hb
    rw [List.mem_append] at hb
    rcases hb with hb | hb
    · exact encU32_mem_lt _ b hb
    · exact h6 b hb

theorem marshalWire_pubkey_mem_lt (bl : List Nat) (h : blobWf bl) :
    ∀ b ∈ marshalWire (.pubkey bl), b < 256 := by
  intro b hb
  rw [show marshalWire (.pubkey bl) = 1 :: encBytes bl from rfl] at hb
  rcases List.mem_cons.mp hb with hb | hb
  · omega
  · unfold encBytes at hb
    rw [List.mem_append] at hb
    rcases hb with hb | hb
    · exact encU32_mem_lt _ b hb
    · exact h.2 b hb

/-! ## base64 round-trip lemmas -/

theorem b64Index_b64Char : ∀ n < 64, b64Index (b64Char n) = some n := by decide

theorem b64Char_ne_pad : ∀ n < 64, b64Char n ≠ '=' := by decide

/-- Every output of `b64Char` is the padding character or an alphabet
character. -/
theorem b64Char_mem (n : Nat) : b64Char n = '=' ∨ b64Char n ∈ b64Alphabet := by
  rcases Nat.lt_or_ge n b64Alphabet.length with h | h
  · right
    unfold b64Char
    rw [List.getD_eq_getElem _ _ h]
    exact List.getElem_mem h
  · left
    unfold b64Char
    exact List.getD_eq_default _ _ h

theorem b64Char_safe (n : Nat) : b64Char n ≠ '"' ∧ b64Char n ≠ '\\' := by
  have hmem : ∀ c ∈ '=' :: b64Alphabet, c ≠ '"' ∧ c ≠ '\\' := by decide
  rcases b64Char_mem n with h | h
  · rw [h]; exact hmem '=' (by simp)
  · exact hmem _ (by simp [h])

/-- base64 output never contains a quote or backslash. -/
theorem b64EncodeList_safe : ∀ bs : List Nat, ∀ c ∈ b64EncodeList bs,
    c ≠ '"' ∧ c ≠ '\\'
  | [], c, hc => absurd hc (List.not_mem_nil c)
  | [x], c, hc => by
    simp only [b64EncodeList, List.mem_cons, List.not_mem_nil, or_false] at hc
    rcases hc with rfl | rfl | rfl | rfl
    · exact b64Char_safe _
    · exact b64Char_safe _
    · exact ⟨by decide, by decide⟩
    · exact ⟨by decide, by decide⟩
  | [x, y], c, hc => by
    simp only [b64EncodeList, List.mem_cons, List.not_mem_nil, or_false] at hc
    rcases hc with rfl | rfl | rfl | rfl
    · exact b64Char_safe _
    · exact b64Char_safe _
    · exact b64Char_safe _
    · exact ⟨by decide, by decide⟩
  | x :: y :: z :: rest, c, hc => by
    simp only [b64EncodeList, List.mem_cons] at hc
    rcases hc with rfl | rfl | rfl | rfl | hc
    · exact b64Char_safe _
    · exact b64Char_safe _
    · exact b64Char_safe _
    · exact b64Char_safe _
    · exact b64EncodeList_safe rest c hc

/-- base64 of a non-empty byte list is non-empty. -/
theorem b64EncodeList_ne_nil : ∀ (x : Nat) (l : List Nat),
    b64EncodeList (x :: l) ≠ [] := by
  intro x l
  match l with
  | [] => simp [b64EncodeList]
  | [y] => simp [b64EncodeList]
  | y :: z :: rest => simp [b64EncodeList]

/-- The base64 round trip on byte lists. -/
theorem b64_roundtrip : ∀ bs : List Nat, (∀ b ∈ bs, b < 256) →
    b64DecodeList (b64EncodeList bs) = some bs
  | [], _ => rfl
  | [x], h => by
    have hx : x < 256 := h x (by simp)
    show b64DecodeList [b64Char (x * 65536 / 262144), b64Char (x * 65536 / 4096 % 64),
      '=', '='] = some [x]
    unfold b64DecodeList
    rw [b64Index_b64Char _ (by omega), b64Index_b64Char _ (by omega)]
    simp only []
    simp
    omega
  | [x, y], h => by
    have hx : x < 256 := h x (by simp)
    have hy : y < 256 := h y (by simp)
    show b64DecodeList [b64Char ((x * 65536 + y * 256) / 262144),
      b64Char ((x * 65536 + y * 256) / 4096 % 64),
      b64Char ((x * 65536 + y * 256) / 64 % 64), '='] = some [x, y]
    unfold b64DecodeList
    rw [b64Index_b64Char _ (by omega), b64Index_b64Char _ (by omega)]
    simp only []
    rw [if_neg (b64Char_ne_pad _ (by omega)), b64Index_b64Char _ (by omega)]
    simp only []
    simp
    omega
  | x :: y :: z :: rest, h => by
    have hx : x < 256 := h x (by simp)
    have hy : y < 256 := h y (by simp)
    have hz : z < 256 := h z (by simp)
    have ih := b64_roundtrip rest (fun b hb => h b (by simp [hb]))
    show b64DecodeList (b64Char ((x * 65536 + y * 256 + z) / 262144) ::
      b64Char ((x * 65536 + y * 256 + z) / 4096 % 64) ::
      b64Char ((x * 65536 + y * 256 + z) / 64 % 64) ::
      b64Char ((x * 65536 + y * 256 + z) % 64) :: b64EncodeList rest) =
      some (x :: y :: z :: rest)
    unfold b64DecodeList
    rw [b64Index_b64Char _ (by omega), b64Index_b64Char _ (by omega)]
    simp only []
    rw [if_neg (b64Char_ne_pad _ (by omega)), b64Index_b64Char _ (by omega)]
    simp only []
    rw [if_neg (b64Char_ne_pad _ (by omega)), b64Index_b64Char _ (by omega)]
    simp only []
    rw [ih]
    simp only []
    simp
    omega

theorem base64_roundtrip (bs : List Nat) (h : ∀ b ∈ bs, b < 256) :
    base64Decode (base64Encode bs) = some bs :=
  b64_roundtrip bs h

/-! ## JSON layer lemmas -/

theorem jsonQuote_ne_null (s : String) : jsonQuote s ≠ "null" := by
  intro heq
  have h2 : (jsonQuote s).data = "null".data := congrArg String.data heq
  rw [show (jsonQuote s).data = '"' :: (s.data ++ ['"']) from rfl,
    show "null".data = ['n', 'u', 'l', 'l'] from rfl] at h2
  injection h2 with hhead _
  exact absurd hhead (by decide)

theorem jsonUnquote_jsonQuote (s : String)
    (hsafe : ∀ c ∈ s.data, c ≠ '"' ∧ c ≠ '\\') :
    jsonUnquote (jsonQuote s) = some s := by
  unfold jsonUnquote
  rw [if_neg (jsonQuote_ne_null s)]
  rw [show (jsonQuote s).data = '"' :: (s.data ++ ['"']) from rfl]
  simp only [List.getLast?_concat, List.dropLast_concat]
  simp only [List.all_eq_true, decide_eq_true_eq]
  simp
  exact hsafe

theorem base64Encode_ne_empty (x : Nat) (l : List Nat) :
    base64Encode (x :: l) ≠ "" := by
  intro heq
  have h2 : (base64Encode (x :: l)).data = "".data := congrArg String.data heq
  rw [show (base64Encode (x :: l)).data = b64EncodeList (x :: l) from rfl,
    show "".data = [] from rfl] at h2
  exact b64EncodeList_ne_nil x l h2

/-! ## C7 -/

/-- C7: the certificate codec round trip.  (1) For every well-formed
certificate, decoding the encoding yields it back; (2) an absent certificate
encodes as the literal `null`, and decoding `null` or an (encoded) empty
string yields absent without error; (3) decoding any JSON string whose
content base64-decodes and parses as a bare public key — not a certificate —
fails with the type-mismatch error. -/
theorem sshCertificate_codec_roundtrip :
    (∀ c : SSHCert, certWf c →
      SSHCertificate.UnmarshalJSON (SSHCertificate.MarshalJSON (some c)) =
        .ok (some c)) ∧
    (SSHCertificate.MarshalJSON none = "null" ∧
      SSHCertificate.UnmarshalJSON "null" = .ok none ∧
      SSHCertificate.UnmarshalJSON (jsonQuote "") = .ok none) ∧
    (∀ (data s : String) (bytes blob : List Nat),
      jsonUnquote data = some s → s ≠ "" → base64Decode s = some bytes →
      parsePublicKey bytes = some (.pubkey blob) →
      SSHCertificate.UnmarshalJSON data =
        .error "error decoding ssh certificate: the value is not an *ssh.Certificate") := by
  refine ⟨?_, ⟨rfl, rfl, rfl⟩, ?_⟩
  · intro c hwf
    show SSHCertificate.UnmarshalJSON
      (jsonQuote (base64Encode (marshalWire (.cert c)))) = .ok (some c)
    unfold SSHCertificate.UnmarshalJSON
    rw [jsonUnquote_jsonQuote (base64Encode (marshalWire (.cert c)))
      (fun ch hch => b64EncodeList_safe _ ch hch)]
    simp only []
    rw [if_neg ?hne]
    case hne =>
      show ¬base64Encode (0 :: (encU32 c.certType ++ (encU64 c.serial ++
        (encStrList c.validPrincipals ++ encBytes c.keyBlob)))) = ""
      exact base64Encode_ne_empty _ _
    rw [base64_roundtrip _ (marshalWire_cert_mem_lt c hwf)]
    simp only []
    rw [parsePublicKey_marshalWire_cert c hwf]
  · intro data s bytes blob hunq hne hdec hparse
    unfold SSHCertificate.UnmarshalJSON
    rw [hunq]
    simp only []
    rw [if_neg hne, hdec]
    simp only []
    rw [hparse]

end Certificates
